import Mathlib

set_option maxRecDepth 8000

/-! Shallow embedding of the practice-logistics core of `src/app.py`
(a Flask/SQLAlchemy application).  Database rows are modelled as Lean
structures, tables as lists held in an `AppState`, and each route's
state mutation as a pure function on `AppState`.  Auto-increment primary
keys are modelled by `nextTransportId` / `nextSessionId` counters.
Machine integers are modelled as `Nat`; the source only ever clamps the
transport counter with `max(0, c - 1)`, which is exactly `Nat`
subtraction `c - 1`. -/

inductive Direction where
  | toDir
  | fromDir
deriving DecidableEq

/-- Row of the `user` table; only the fields read by the core are kept
(`id`, `role`, `transport_count`). -/
structure User where
  id : Nat
  role : String
  transport_count : Nat
deriving DecidableEq

/-- Row of the `board` table; only `id` and `location` are read by the
practice-logistics core. -/
structure Board where
  id : Nat
  location : String
deriving DecidableEq

/-- Row of the `practice` table; only `id` and `location` are read. -/
structure Practice where
  id : Nat
  location : String
deriving DecidableEq

/-- Row of the `practice_session` table, with its `session_members`
association rows inlined as the list of member user ids. -/
structure PracticeSession where
  id : Nat
  practice_id : Nat
  session_number : Nat
  members : List Nat
deriving DecidableEq

/-- Row of the `attendance` table. -/
structure Attendance where
  id : Nat
  practice_id : Nat
  user_id : Nat
  status : String
  reason : String
  notes : String
deriving DecidableEq

/-- Row of the `transport` table. -/
structure Transport where
  id : Nat
  practice_id : Nat
  user_id : Nat
  board_id : Nat
  direction : Direction
deriving DecidableEq

/-- The whole database. -/
structure AppState where
  users : List User
  boards : List Board
  practices : List Practice
  sessions : List PracticeSession
  attendances : List Attendance
  transports : List Transport
  nextTransportId : Nat
  nextSessionId : Nat
deriving DecidableEq

/-- `Transport.query.filter_by(practice_id=..., board_id=..., direction=...)`'s
row predicate. -/
def sameTriple (pid bid : Nat) (dir : Direction) (t : Transport) : Bool :=
  t.practice_id == pid && t.board_id == bid && decide (t.direction = dir)

/-- SQLAlchemy identity-mapped in-place mutation of one user's
`transport_count`: every row whose `id` matches is updated. -/
def adjustCount (users : List User) (uid : Nat) (f : Nat → Nat) : List User :=
  users.map fun u => if u.id == uid then { u with transport_count := f u.transport_count } else u

/-- `existing.user_id = user_id`: rebind the transport row with id `tid`
to the carrier `uid`. -/
def rebind (ts : List Transport) (tid uid : Nat) : List Transport :=
  ts.map fun t => if t.id == tid then { t with user_id := uid } else t

/-- Create a transport row and increment the carrier's counter — the
`else` branch of the `assign_transport` loop, and (with direction
`fromDir`) the winner-binding step of `run_lottery`. -/
def createTransport (s : AppState) (pid uid bid : Nat) (dir : Direction) : AppState :=
  { s with
      transports := s.transports ++ [⟨s.nextTransportId, pid, uid, bid, dir⟩],
      nextTransportId := s.nextTransportId + 1,
      users := adjustCount s.users uid (fun c => c + 1) }

/-- Body of the `for board_id in board_ids` loop of `assign_transport`
(src/app.py lines 587-600). -/
def assignTransportOne (s : AppState) (pid uid bid : Nat) (dir : Direction) : AppState :=
  match s.transports.find? (sameTriple pid bid dir) with
  | some existing =>
      -- 上書き処理: decrement the old carrier (max(0, c-1)), rebind, increment the new carrier
      let s1 := { s with users := adjustCount s.users existing.user_id (fun c => c - 1) }
      let s2 := { s1 with transports := rebind s1.transports existing.id uid }
      { s2 with users := adjustCount s2.users uid (fun c => c + 1) }
  | none =>
      createTransport s pid uid bid dir

inductive AssignError where
  | missingInput
  | userNotFound
deriving DecidableEq

/-- The `assign_transport` route (src/app.py lines 572-603): validation,
then the per-board loop. -/
def assign_transport (s : AppState) (pid uid : Nat) (bids : List Nat) (dir : Direction) :
    AppState × Option AssignError :=
  if bids.isEmpty then (s, some AssignError.missingInput)
  else
    match s.users.find? (fun u => u.id == uid) with
    | none => (s, some AssignError.userNotFound)
    | some _ => (bids.foldl (fun st bid => assignTransportOne st pid uid bid dir) s, none)

/-- The `unassign_transport` route (src/app.py lines 605-617): decrement
the bound carrier's counter (floor 0) and delete the row.  A missing id
(404) leaves the state unchanged. -/
def unassign_transport (s : AppState) (tid : Nat) : AppState :=
  match s.transports.find? (fun t => t.id == tid) with
  | none => s
  | some t =>
      { s with
          users := adjustCount s.users t.user_id (fun c => c - 1),
          transports := s.transports.eraseP (fun t2 => t2.id == tid) }

/-- Membership of `uid` in `{att.user for att in practice.attendances if att.status == 'present'}`. -/
def isPresent (s : AppState) (pid uid : Nat) : Bool :=
  s.attendances.any fun a => a.practice_id == pid && a.user_id == uid && a.status == "present"

/-- Membership of `uid` in the set of users bound to a `dir`-direction
transport of practice `pid`. -/
def carries (s : AppState) (pid uid : Nat) (dir : Direction) : Bool :=
  s.transports.any fun t => t.practice_id == pid && t.user_id == uid && decide (t.direction = dir)

/-- `primary_pool = list(attendees - transporters_to_users - transporters_from_confirmed_users)`
(src/app.py line 634).  Set-of-rows iteration is modelled in `users`-table
order; all lottery properties are proved for every pick sequence, so the
order is irrelevant. -/
def primary_pool (s : AppState) (pid : Nat) : List User :=
  s.users.filter fun u =>
    isPresent s pid u.id && !carries s pid u.id Direction.toDir && !carries s pid u.id Direction.fromDir

/-- `secondary_pool = list(transporters_to_users - transporters_from_confirmed_users)`
(src/app.py line 635). -/
def secondary_pool (s : AppState) (pid : Nat) : List User :=
  s.users.filter fun u =>
    carries s pid u.id Direction.toDir && !carries s pid u.id Direction.fromDir

/-- `final_pool` selection (src/app.py lines 636-640). -/
def final_pool (s : AppState) (pid demand : Nat) : List User :=
  if demand ≤ (primary_pool s pid).length then primary_pool s pid
  else primary_pool s pid ++ secondary_pool s pid

/-- The winner-drawing loop (src/app.py lines 645-652): repeatedly pick
one element of the remaining pool and drop every entry sharing the
winner's id, stopping early if the pool empties.  `random.choices` can
return any element of a nonempty pool (all weights `1/(c+1)^2` are
positive), so its outcome is modelled by an arbitrary stream `rand` of
indices; every reachable outcome of the Python draw corresponds to some
stream and vice versa. -/
def drawWinners : List User → Nat → List Nat → List User
  | _, 0, _ => []
  | [], _ + 1, _ => []
  | u :: pool, d + 1, rand =>
      let l := u :: pool
      let winner := l.get ⟨rand.headD 0 % l.length, Nat.mod_lt _ (Nat.succ_pos _)⟩
      winner :: drawWinners (l.filter fun v => !(v.id == winner.id)) d rand.tail

inductive LotteryOutcome where
  | ok (winners : List User)
  | noBoards
  | insufficient (needed available : Nat)
deriving DecidableEq

/-- Winner-binding step (src/app.py lines 653-659): skip if a
`from`-direction row already exists for the board, otherwise create the
row and increment the winner's counter. -/
def applyWinner (pid : Nat) (st : AppState) (wb : User × Nat) : AppState :=
  if st.transports.any (sameTriple pid wb.2 Direction.fromDir) then st
  else createTransport st pid wb.1.id wb.2 Direction.fromDir

/-- The `run_lottery` route (src/app.py lines 619-663). -/
def run_lottery (s : AppState) (pid : Nat) (bids : List Nat) (rand : List Nat) :
    AppState × LotteryOutcome :=
  if bids.isEmpty then (s, LotteryOutcome.noBoards)
  else
    if (final_pool s pid bids.length).length < bids.length then
      (s, LotteryOutcome.insufficient bids.length (final_pool s pid bids.length).length)
    else
      (((drawWinners (final_pool s pid bids.length) bids.length rand).zip bids).foldl
          (applyWinner pid) s,
       LotteryOutcome.ok (drawWinners (final_pool s pid bids.length) bids.length rand))

/-- `practice.sessions` (rows of the session table belonging to `pid`). -/
def practiceSessions (s : AppState) (pid : Nat) : List PracticeSession :=
  s.sessions.filter fun ss => ss.practice_id == pid

/-- `boards_at_location = Board.query.filter_by(location=practice.location).count()`
(src/app.py line 454). -/
def boards_at_location (s : AppState) (loc : String) : Nat :=
  (s.boards.filter fun b => b.location == loc).length

/-- The `max_session_members` loop of `practice_detail`
(src/app.py lines 458-461). -/
def max_session_members (s : AppState) (pid : Nat) : Nat :=
  (practiceSessions s pid).foldl (fun m ss => max m ss.members.length) 0

/-- `required_transport_boards = max(0, max_session_members - boards_at_location)`
(src/app.py line 462); `Nat` subtraction is exactly `max(0, a - b)` on
the non-negative ints involved. -/
def required_transport_boards (s : AppState) (p : Practice) : Nat :=
  max_session_members s p.id - boards_at_location s p.location

/-- The set `boards_at_practice` of src/app.py line 467 — boards at the
location OR targeted by a `to`-direction transport of this practice.
The spec's §4.1 says `boards_at_location` counts THIS set; the code uses
it only for display and bases `required_transport_boards` on the plain
location count.  Defined here, following the spec's words, to compare
the two. -/
def boardsAtPracticeSpec (s : AppState) (p : Practice) : Nat :=
  (s.boards.filter fun b =>
    b.location == p.location ||
      s.transports.any fun t =>
        t.practice_id == p.id && decide (t.direction = Direction.toDir) && t.board_id == b.id).length

/-- The `add_session` route (src/app.py lines 498-508): the new session
gets number `len(practice.sessions) + 1`. -/
def add_session (s : AppState) (pid : Nat) : AppState :=
  { s with
      sessions := s.sessions ++ [⟨s.nextSessionId, pid, (practiceSessions s pid).length + 1, []⟩],
      nextSessionId := s.nextSessionId + 1 }

/-- The `delete_session` route (src/app.py lines 551-560): delete the row
(membership rows go with it); a missing id (404) leaves the state
unchanged. -/
def delete_session (s : AppState) (sid : Nat) : AppState :=
  { s with sessions := s.sessions.eraseP fun ss => ss.id == sid }

inductive AnswerError where
  | guestDenied
  | notFound
  | permissionDenied
deriving DecidableEq

/-- The `answer_attendance` route (src/app.py lines 483-496), including
the `member_required` guest guard.  The only permission check is
`attendance.user_id != current_user.id`; on success the row's status,
notes and reason are set as given, with no further validation. -/
def answer_attendance (s : AppState) (caller : User) (attendance_id : Nat)
    (status notes reason : String) : AppState × Option AnswerError :=
  if caller.role == "guest" then (s, some AnswerError.guestDenied)
  else
    match s.attendances.find? (fun a => a.id == attendance_id) with
    | none => (s, some AnswerError.notFound)
    | some att =>
        if att.user_id != caller.id then (s, some AnswerError.permissionDenied)
        else
          ({ s with attendances := s.attendances.map fun a =>
              if a.id == attendance_id then { a with status := status, notes := notes, reason := reason }
              else a },
           none)

/-- One core operation, for stating the multi-step counter invariant. -/
inductive Op where
  | assign (pid uid : Nat) (bids : List Nat) (dir : Direction)
  | unassign (tid : Nat)
  | lottery (pid : Nat) (bids : List Nat) (rand : List Nat)

def applyOp (s : AppState) : Op → AppState
  | Op.assign pid uid bids dir => (assign_transport s pid uid bids dir).1
  | Op.unassign tid => unassign_transport s tid
  | Op.lottery pid bids rand => (run_lottery s pid bids rand).1

def applyOps (s : AppState) (ops : List Op) : AppState :=
  ops.foldl applyOp s

/-- Number of transport rows currently bound to user `uid`. -/
def countFor (ts : List Transport) (uid : Nat) : Nat :=
  (ts.filter fun t => t.user_id == uid).length

/-- The transport-counter invariant of spec §4.4. -/
def counterInv (s : AppState) : Prop :=
  ∀ u ∈ s.users, u.transport_count = countFor s.transports u.id

/-- Database well-formedness: primary keys are unique, the transport
auto-increment counter is fresh, and the counter invariant holds. -/
def WF (s : AppState) : Prop :=
  (s.users.map User.id).Nodup ∧
    (s.transports.map Transport.id).Nodup ∧
    (∀ t ∈ s.transports, t.id < s.nextTransportId) ∧
    counterInv s

instance : DecidablePred counterInv := fun s => by
  unfold counterInv; infer_instance

instance : DecidablePred WF := fun s => by
  unfold WF; infer_instance

/-- The current transport counter of user `uid` (0 if the user does not
exist). -/
def userCount (s : AppState) (uid : Nat) : Nat :=
  ((s.users.find? fun u => u.id == uid).map User.transport_count).getD 0

/-- Attendance row numbers of a practice, in table order. -/
def sessionNumbers (s : AppState) (pid : Nat) : List Nat :=
  (practiceSessions s pid).map PracticeSession.session_number

/-- Spec-level (§4.5 step 1) attendee predicate: has an attendance row
for the practice with status exactly `present`. -/
def IsAttendee (s : AppState) (pid uid : Nat) : Prop :=
  ∃ a ∈ s.attendances, a.practice_id = pid ∧ a.user_id = uid ∧ a.status = "present"

/-- Spec-level (§4.5 steps 2-3) carrier predicate: bound to a
`dir`-direction transport row of the practice. -/
def IsCarrier (s : AppState) (pid uid : Nat) (dir : Direction) : Prop :=
  ∃ t ∈ s.transports, t.practice_id = pid ∧ t.user_id = uid ∧ t.direction = dir

/-- Selection weight of §4.5 step 8: `1 / (transport_count + 1)^2`
(src/app.py line 644). -/
def lotteryWeight (tc : Nat) : ℚ :=
  1 / (((tc : ℚ) + 1) ^ 2)

/-- Distribution of one `random.choices(users, weights=...)` call over a
fixed pool: each candidate is chosen with probability proportional to
its weight. -/
def selectionProb (pool : List User) (u : User) : ℚ :=
  lotteryWeight u.transport_count / (pool.map fun v => lotteryWeight v.transport_count).sum

/-! ### Helper lemmas about the table-manipulation primitives -/

lemma map_eq_self_of_id {α : Type} (l : List α) (f : α → α) (h : ∀ a ∈ l, f a = a) :
    l.map f = l := by
  induction l with
  | nil => rfl
  | cons a r ih => simp [h a (by simp), ih fun x hx => h x (by simp [hx])]

lemma countFor_cons (t : Transport) (ts : List Transport) (w : Nat) :
    countFor (t :: ts) w = (if t.user_id = w then 1 else 0) + countFor ts w := by
  by_cases h : t.user_id = w <;> simp [countFor, List.filter_cons, h, Nat.add_comm]

lemma countFor_append_single (ts : List Transport) (t : Transport) (w : Nat) :
    countFor (ts ++ [t]) w = countFor ts w + (if w = t.user_id then 1 else 0) := by
  by_cases h : w = t.user_id
  · subst h; simp [countFor, List.filter_append]
  · have h2 : ¬(t.user_id = w) := fun hh => h hh.symm
    simp [countFor, List.filter_append, h, h2]

lemma countFor_pos (ts : List Transport) (t : Transport) (w : Nat)
    (ht : t ∈ ts) (hw : t.user_id = w) : 0 < countFor ts w := by
  have : t ∈ ts.filter fun t2 => t2.user_id == w := List.mem_filter.mpr ⟨ht, by simp [hw]⟩
  exact List.length_pos_of_mem this

lemma countFor_eraseP (ts : List Transport) (tid : Nat) (e : Transport) (w : Nat)
    (hfind : ts.find? (fun t => t.id == tid) = some e) :
    countFor (ts.eraseP fun t => t.id == tid) w + (if w = e.user_id then 1 else 0) =
      countFor ts w := by
  induction ts with
  | nil => simp at hfind
  | cons t rest ih =>
    by_cases h : t.id = tid
    · rw [List.find?_cons_of_pos _ (by simp [h])] at hfind
      have he : e = t := by simpa using hfind.symm
      subst he
      rw [List.eraseP_cons_of_pos (by simp [h]), countFor_cons]
      by_cases h2 : w = e.user_id
      · subst h2; simp [Nat.add_comm]
      · have h3 : ¬(e.user_id = w) := fun hh => h2 hh.symm
        simp [h2, h3]
    · rw [List.find?_cons_of_neg _ (by simp [h])] at hfind
      rw [List.eraseP_cons_of_neg (by simp [h]), countFor_cons, countFor_cons]
      have := ih hfind
      by_cases h2 : t.user_id = w <;> simp [h2] <;> omega

lemma rebind_map_id (ts : List Transport) (tid uid : Nat) :
    (rebind ts tid uid).map Transport.id = ts.map Transport.id := by
  induction ts with
  | nil => rfl
  | cons t rest ih =>
    have hhead : (if (t.id == tid) = true then { t with user_id := uid } else t).id = t.id := by
      by_cases h : t.id = tid <;> simp [h]
    simp only [rebind, List.map_cons] at ih ⊢
    rw [hhead, ih]

lemma rebind_eq_self (ts : List Transport) (tid uid : Nat)
    (h : ∀ t ∈ ts, t.id ≠ tid) : rebind ts tid uid = ts := by
  apply map_eq_self_of_id
  intro t ht
  simp [h t ht]

lemma countFor_rebind (ts : List Transport) (e : Transport) (uid w : Nat)
    (hnd : (ts.map Transport.id).Nodup) (he : e ∈ ts) :
    countFor (rebind ts e.id uid) w + (if w = e.user_id then 1 else 0) =
      countFor ts w + (if w = uid then 1 else 0) := by
  induction ts with
  | nil => cases he
  | cons t rest ih =>
    simp only [List.map_cons, List.nodup_cons] at hnd
    obtain ⟨hhead, hrest⟩ := hnd
    simp only [rebind, List.map_cons]
    rcases List.mem_cons.mp he with he | he
    · subst he
      have hr : List.map
          (fun t => if (t.id == e.id) = true then { t with user_id := uid } else t) rest = rest := by
        have := rebind_eq_self rest e.id uid
          fun a ha hc => hhead (hc ▸ List.mem_map_of_mem Transport.id ha)
        simpa [rebind] using this
      rw [if_pos (by simp), hr, countFor_cons, countFor_cons]
      have hproj : ({ e with user_id := uid } : Transport).user_id = uid := rfl
      simp only [hproj]
      split_ifs <;> omega
    · have hne : ¬ t.id = e.id := fun hc => hhead (hc ▸ List.mem_map_of_mem Transport.id he)
      rw [if_neg (by simp [hne]), countFor_cons, countFor_cons]
      have ihr := ih hrest he
      simp only [rebind] at ihr
      revert ihr
      split_ifs <;> intro ihr <;> omega

lemma adjustCount_map_id (users : List User) (uid : Nat) (f : Nat → Nat) :
    (adjustCount users uid f).map User.id = users.map User.id := by
  induction users with
  | nil => rfl
  | cons u rest ih =>
    have hhead : (if (u.id == uid) = true
        then { u with transport_count := f u.transport_count } else u).id = u.id := by
      by_cases h : u.id = uid <;> simp [h]
    simp only [adjustCount, List.map_cons] at ih ⊢
    rw [hhead, ih]

lemma find?_adjustCount (users : List User) (uid w : Nat) (f : Nat → Nat) :
    (adjustCount users uid f).find? (fun u => u.id == w) =
      (users.find? fun u => u.id == w).map
        fun u => if u.id == uid then { u with transport_count := f u.transport_count } else u := by
  induction users with
  | nil => rfl
  | cons u rest ih =>
    have hid : (if (u.id == uid) = true
        then { u with transport_count := f u.transport_count } else u).id = u.id := by
      by_cases h : u.id = uid <;> simp [h]
    by_cases hw : u.id = w
    · simp only [adjustCount, List.map_cons]
      rw [List.find?_cons_of_pos _ (by rw [hid]; simp [hw]),
        List.find?_cons_of_pos _ (by simp [hw])]
      simp
    · simp only [adjustCount, List.map_cons]
      rw [List.find?_cons_of_neg _ (by rw [hid]; simp [hw]),
        List.find?_cons_of_neg _ (by simp [hw])]
      exact ih

lemma counterInv_create (users : List User) (ts : List Transport) (newT : Transport)
    (hC : ∀ u ∈ users, u.transport_count = countFor ts u.id) :
    ∀ u ∈ adjustCount users newT.user_id (fun c => c + 1),
      u.transport_count = countFor (ts ++ [newT]) u.id := by
  intro u hu
  simp only [adjustCount, List.mem_map] at hu
  obtain ⟨u0, hu0, rfl⟩ := hu
  have hc := hC u0 hu0
  by_cases hq : u0.id = newT.user_id
  · have b1 : (u0.id == newT.user_id) = true := by simp [hq]
    rw [if_pos b1]
    show u0.transport_count + 1 = countFor (ts ++ [newT]) u0.id
    rw [countFor_append_single, if_pos hq]
    omega
  · have b1 : ¬((u0.id == newT.user_id) = true) := by simp [hq]
    rw [if_neg b1]
    rw [countFor_append_single, if_neg hq]
    omega

lemma counterInv_unassign (users : List User) (ts : List Transport) (tid : Nat) (e : Transport)
    (hfind : ts.find? (fun t => t.id == tid) = some e)
    (hC : ∀ u ∈ users, u.transport_count = countFor ts u.id) :
    ∀ u ∈ adjustCount users e.user_id (fun c => c - 1),
      u.transport_count = countFor (ts.eraseP fun t => t.id == tid) u.id := by
  intro u hu
  simp only [adjustCount, List.mem_map] at hu
  obtain ⟨u0, hu0, rfl⟩ := hu
  have hc := hC u0 hu0
  have key := countFor_eraseP ts tid e u0.id hfind
  by_cases hq : u0.id = e.user_id
  · have b1 : (u0.id == e.user_id) = true := by simp [hq]
    rw [if_pos b1]
    show u0.transport_count - 1 = countFor (ts.eraseP fun t => t.id == tid) u0.id
    rw [if_pos hq] at key
    omega
  · have b1 : ¬((u0.id == e.user_id) = true) := by simp [hq]
    rw [if_neg b1]
    rw [if_neg hq] at key
    omega

lemma counterInv_rebind (users : List User) (ts : List Transport) (e : Transport) (uid : Nat)
    (hT : (ts.map Transport.id).Nodup) (he : e ∈ ts)
    (hC : ∀ u ∈ users, u.transport_count = countFor ts u.id) :
    ∀ u ∈ adjustCount (adjustCount users e.user_id (fun c => c - 1)) uid (fun c => c + 1),
      u.transport_count = countFor (rebind ts e.id uid) u.id := by
  intro u hu
  simp only [adjustCount, List.mem_map] at hu
  obtain ⟨u1, ⟨u0, hu0, rfl⟩, rfl⟩ := hu
  have hc := hC u0 hu0
  have key := countFor_rebind ts e uid u0.id hT he
  by_cases hq1 : u0.id = e.user_id
  · have b1 : (u0.id == e.user_id) = true := by simp [hq1]
    rw [if_pos b1]
    have hpos : 0 < countFor ts u0.id := countFor_pos ts e u0.id he hq1.symm
    rw [if_pos hq1] at key
    by_cases hq2 : u0.id = uid
    · have b2 : (({ u0 with transport_count := u0.transport_count - 1 } : User).id == uid)
          = true := by simp [hq2]
      rw [if_pos b2]
      show u0.transport_count - 1 + 1 = countFor (rebind ts e.id uid) u0.id
      rw [if_pos hq2] at key
      omega
    · have b2 : ¬((({ u0 with transport_count := u0.transport_count - 1 } : User).id == uid)
          = true) := by simp [hq2]
      rw [if_neg b2]
      show u0.transport_count - 1 = countFor (rebind ts e.id uid) u0.id
      rw [if_neg hq2] at key
      omega
  · have b1 : ¬((u0.id == e.user_id) = true) := by simp [hq1]
    rw [if_neg b1]
    rw [if_neg hq1] at key
    by_cases hq2 : u0.id = uid
    · have b2 : (u0.id == uid) = true := by simp [hq2]
      rw [if_pos b2]
      show u0.transport_count + 1 = countFor (rebind ts e.id uid) u0.id
      rw [if_pos hq2] at key
      omega
    · have b2 : ¬((u0.id == uid) = true) := by simp [hq2]
      rw [if_neg b2]
      rw [if_neg hq2] at key
      omega

/-! ### Well-formedness is preserved by every core operation -/

lemma WF_createTransport (s : AppState) (pid uid bid : Nat) (dir : Direction) (h : WF s) :
    WF (createTransport s pid uid bid dir) := by
  obtain ⟨hU, hT, hB, hC⟩ := h
  refine ⟨?_, ?_, ?_, ?_⟩
  · show ((adjustCount s.users uid fun c => c + 1).map User.id).Nodup
    rw [adjustCount_map_id]; exact hU
  · show ((s.transports ++ [(⟨s.nextTransportId, pid, uid, bid, dir⟩ : Transport)]).map
      Transport.id).Nodup
    rw [List.map_append, List.nodup_append]
    refine ⟨hT, by simp, ?_⟩
    intro a ha hb
    simp only [List.map_cons, List.map_nil, List.mem_singleton] at hb
    obtain ⟨t, ht, rfl⟩ := List.mem_map.mp ha
    have := hB t ht
    omega
  · intro t ht
    show t.id < s.nextTransportId + 1
    rcases List.mem_append.mp ht with ht | ht
    · exact Nat.lt_succ_of_lt (hB t ht)
    · simp only [List.mem_singleton] at ht
      subst ht
      exact Nat.lt_succ_self _
  · exact counterInv_create s.users s.transports ⟨s.nextTransportId, pid, uid, bid, dir⟩ hC

lemma WF_assignTransportOne (s : AppState) (pid uid bid : Nat) (dir : Direction) (h : WF s) :
    WF (assignTransportOne s pid uid bid dir) := by
  obtain ⟨hU, hT, hB, hC⟩ := h
  cases hf : s.transports.find? (sameTriple pid bid dir) with
  | none =>
      simp only [assignTransportOne, hf]
      exact WF_createTransport s pid uid bid dir ⟨hU, hT, hB, hC⟩
  | some e =>
      simp only [assignTransportOne, hf]
      have heMem : e ∈ s.transports := List.mem_of_find?_eq_some hf
      refine ⟨?_, ?_, ?_, ?_⟩
      · show ((adjustCount (adjustCount s.users e.user_id fun c => c - 1) uid
            fun c => c + 1).map User.id).Nodup
        rw [adjustCount_map_id, adjustCount_map_id]; exact hU
      · show ((rebind s.transports e.id uid).map Transport.id).Nodup
        rw [rebind_map_id]; exact hT
      · intro t ht
        show t.id < s.nextTransportId
        simp only [rebind, List.mem_map] at ht
        obtain ⟨t0, ht0, rfl⟩ := ht
        have hid : (if (t0.id == e.id) = true then { t0 with user_id := uid } else t0).id
            = t0.id := by
          by_cases hq : t0.id = e.id <;> simp [hq]
        rw [hid]
        exact hB t0 ht0
      · exact counterInv_rebind s.users s.transports e uid hT heMem hC

lemma WF_unassign_transport (s : AppState) (tid : Nat) (h : WF s) :
    WF (unassign_transport s tid) := by
  obtain ⟨hU, hT, hB, hC⟩ := h
  cases hf : s.transports.find? (fun t => t.id == tid) with
  | none => simp only [unassign_transport, hf]; exact ⟨hU, hT, hB, hC⟩
  | some e =>
      simp only [unassign_transport, hf]
      refine ⟨?_, ?_, ?_, ?_⟩
      · show ((adjustCount s.users e.user_id fun c => c - 1).map User.id).Nodup
        rw [adjustCount_map_id]; exact hU
      · exact hT.sublist ((List.eraseP_sublist _).map Transport.id)
      · intro t ht
        exact hB t ((List.eraseP_sublist _).subset ht)
      · exact counterInv_unassign s.users s.transports tid e hf hC

lemma WF_applyWinner (pid : Nat) (st : AppState) (wb : User × Nat) (h : WF st) :
    WF (applyWinner pid st wb) := by
  by_cases hcond : st.transports.any (sameTriple pid wb.2 Direction.fromDir) = true
  · rw [applyWinner, if_pos hcond]; exact h
  · rw [applyWinner, if_neg hcond]
    exact WF_createTransport st pid wb.1.id wb.2 Direction.fromDir h

lemma WF_foldl_assign (pid uid : Nat) (dir : Direction) :
    ∀ (bids : List Nat) (s : AppState), WF s →
      WF (bids.foldl (fun st bid => assignTransportOne st pid uid bid dir) s)
  | [], _, h => h
  | bid :: bids, s, h =>
      WF_foldl_assign pid uid dir bids (assignTransportOne s pid uid bid dir)
        (WF_assignTransportOne s pid uid bid dir h)

lemma WF_foldl_applyWinner (pid : Nat) :
    ∀ (pairs : List (User × Nat)) (s : AppState), WF s →
      WF (pairs.foldl (applyWinner pid) s)
  | [], _, h => h
  | wb :: pairs, s, h =>
      WF_foldl_applyWinner pid pairs (applyWinner pid s wb) (WF_applyWinner pid s wb h)

lemma WF_assign_transport (s : AppState) (pid uid : Nat) (bids : List Nat) (dir : Direction)
    (h : WF s) : WF (assign_transport s pid uid bids dir).1 := by
  rw [assign_transport]
  by_cases hb : bids.isEmpty = true
  · rw [if_pos hb]; exact h
  · rw [if_neg hb]
    cases hf : s.users.find? (fun u => u.id == uid) with
    | none => simp only [hf]; exact h
    | some u => simp only [hf]; exact WF_foldl_assign pid uid dir bids s h

lemma WF_run_lottery (s : AppState) (pid : Nat) (bids rand : List Nat) (h : WF s) :
    WF (run_lottery s pid bids rand).1 := by
  rw [run_lottery]
  by_cases hb : bids.isEmpty = true
  · rw [if_pos hb]; exact h
  · rw [if_neg hb]
    by_cases hp : (final_pool s pid bids.length).length < bids.length
    · rw [if_pos hp]; exact h
    · rw [if_neg hp]
      exact WF_foldl_applyWinner pid _ s h

lemma WF_applyOp (s : AppState) (op : Op) (h : WF s) : WF (applyOp s op) := by
  cases op with
  | assign pid uid bids dir => exact WF_assign_transport s pid uid bids dir h
  | unassign tid => exact WF_unassign_transport s tid h
  | lottery pid bids rand => exact WF_run_lottery s pid bids rand h

lemma WF_applyOps : ∀ (ops : List Op) (s : AppState), WF s → WF (applyOps s ops)
  | [], _, h => h
  | op :: ops, s, h => WF_applyOps ops (applyOp s op) (WF_applyOp s op h)

/-! ### C6: the transport-counter invariant -/

/-- C6: for every participant, after any sequence of the core
operations (`assign_transport`, `unassign_transport`, `run_lottery`)
from a well-formed state, the participant's transport counter equals
the number of Transport records currently bound to them.  (Cascade
deletion of a Practice — the documented exception — is not one of these
operations.) -/
theorem transport_counter_invariant (s : AppState) (ops : List Op) (h : WF s) :
    counterInv (applyOps s ops) :=
  (WF_applyOps ops s h).2.2.2

def c6State : AppState :=
  { users := [⟨1, "member", 0⟩, ⟨2, "member", 0⟩, ⟨3, "member", 0⟩],
    boards := [⟨1, "Gym"⟩, ⟨2, "Shed"⟩],
    practices := [⟨1, "Gym"⟩],
    sessions := [],
    attendances := [⟨1, 1, 1, "present", "", ""⟩, ⟨2, 1, 2, "present", "", ""⟩,
      ⟨3, 1, 3, "present", "", ""⟩],
    transports := [],
    nextTransportId := 1,
    nextSessionId := 1 }

def c6Ops : List Op :=
  [Op.assign 1 1 [2] Direction.toDir, Op.assign 1 2 [2] Direction.toDir,
    Op.lottery 1 [5] [0], Op.unassign 1]

theorem transport_counter_invariant_witness :
    WF c6State ∧ counterInv (applyOps c6State c6Ops) :=
  ⟨by decide, transport_counter_invariant c6State c6Ops (by decide)⟩

/-! ### C7 and C10: reassignment semantics of `assign_transport` -/

/-- C7: if the (practice, equipment, direction) triple is bound to
exactly one Transport record, held by carrier `a`, then assigning
carrier `b ≠ a` leaves exactly one record for the triple — now bound to
`b` — decrements `a`'s counter by exactly 1 and increments `b`'s
counter by exactly 1, in the same operation. -/
theorem assign_transport_reassign (s : AppState) (pid bid a b : Nat) (dir : Direction)
    (e : Transport) (hWF : WF s)
    (hfind : s.transports.find? (sameTriple pid bid dir) = some e)
    (huniq : (s.transports.filter (sameTriple pid bid dir)).length = 1)
    (ha : e.user_id = a) (hab : a ≠ b)
    (haS : (s.users.find? fun u => u.id == a).isSome)
    (hbS : (s.users.find? fun u => u.id == b).isSome) :
    ((assignTransportOne s pid b bid dir).transports.filter (sameTriple pid bid dir)
        = [{ e with user_id := b }]) ∧
      userCount (assignTransportOne s pid b bid dir) a + 1 = userCount s a ∧
      userCount (assignTransportOne s pid b bid dir) b = userCount s b + 1 := by
  subst ha
  obtain ⟨hU, hT, hB, hC⟩ := hWF
  have heMem : e ∈ s.transports := List.mem_of_find?_eq_some hfind
  have hpredE : sameTriple pid bid dir e = true := List.find?_some hfind
  obtain ⟨ua, hua⟩ := Option.isSome_iff_exists.mp haS
  obtain ⟨ub, hub⟩ := Option.isSome_iff_exists.mp hbS
  have huaid : ua.id = e.user_id := by simpa using List.find?_some hua
  have hubid : ub.id = b := by simpa using List.find?_some hub
  have hstate : assignTransportOne s pid b bid dir =
      { s with
          users := adjustCount (adjustCount s.users e.user_id fun c => c - 1) b fun c => c + 1,
          transports := rebind s.transports e.id b } := by
    simp only [assignTransportOne, hfind]
  rw [hstate]
  refine ⟨?_, ?_, ?_⟩
  · show (rebind s.transports e.id b).filter (sameTriple pid bid dir) = [{ e with user_id := b }]
    have h1 : (rebind s.transports e.id b).filter (sameTriple pid bid dir)
        = (s.transports.filter (sameTriple pid bid dir)).map
            fun t => if (t.id == e.id) = true then { t with user_id := b } else t := by
      rw [rebind, List.filter_map]
      congr 1
      apply List.filter_congr
      intro t ht
      by_cases hq : t.id = e.id <;> simp [sameTriple, hq]
    have hfe : s.transports.filter (sameTriple pid bid dir) = [e] := by
      obtain ⟨x, hx⟩ := List.length_eq_one.mp huniq
      have he2 : e ∈ s.transports.filter (sameTriple pid bid dir) :=
        List.mem_filter.mpr ⟨heMem, hpredE⟩
      rw [hx] at he2 ⊢
      simp only [List.mem_singleton] at he2
      rw [he2]
    rw [h1, hfe]
    simp
  · have hfa : ((adjustCount (adjustCount s.users e.user_id fun c => c - 1) b
        fun c => c + 1).find? fun u => u.id == e.user_id)
        = some { ua with transport_count := ua.transport_count - 1 } := by
      rw [find?_adjustCount, find?_adjustCount, hua]
      simp [huaid, hab]
    have hCua : ua.transport_count = countFor s.transports ua.id :=
      hC ua (List.mem_of_find?_eq_some hua)
    have hpos : 0 < countFor s.transports ua.id :=
      countFor_pos s.transports e ua.id heMem huaid.symm
    simp only [userCount, hfa, hua, Option.map_some', Option.getD_some]
    omega
  · have hfb : ((adjustCount (adjustCount s.users e.user_id fun c => c - 1) b
        fun c => c + 1).find? fun u => u.id == b)
        = some { ub with transport_count := ub.transport_count + 1 } := by
      rw [find?_adjustCount, find?_adjustCount, hub]
      have hbn : ¬(b = e.user_id) := fun hh => hab hh.symm
      simp [hubid, hbn]
    simp [userCount, hfb, hub]

def c7State : AppState :=
  { users := [⟨1, "member", 1⟩, ⟨2, "member", 0⟩],
    boards := [⟨20, "Gym"⟩],
    practices := [⟨10, "Gym"⟩],
    sessions := [],
    attendances := [],
    transports := [⟨1, 10, 1, 20, Direction.toDir⟩],
    nextTransportId := 2,
    nextSessionId := 1 }

theorem assign_transport_reassign_witness :
    ((assignTransportOne c7State 10 2 20 Direction.toDir).transports.filter
        (sameTriple 10 20 Direction.toDir)
        = [{ (⟨1, 10, 1, 20, Direction.toDir⟩ : Transport) with user_id := 2 }]) ∧
      userCount (assignTransportOne c7State 10 2 20 Direction.toDir) 1 + 1 = userCount c7State 1 ∧
      userCount (assignTransportOne c7State 10 2 20 Direction.toDir) 2 = userCount c7State 2 + 1 :=
  assign_transport_reassign c7State 10 20 1 2 Direction.toDir ⟨1, 10, 1, 20, Direction.toDir⟩
    (by decide) (by decide) (by decide) (by decide) (by decide) (by decide) (by decide)

/-- C10: assigning a triple's transport to the carrier it is already
bound to creates no record and leaves every Transport row unchanged,
but still runs the decrement-then-increment on that carrier's counter:
the counter is unchanged when positive and becomes 1 when it was 0. -/
theorem assign_transport_same_carrier (s : AppState) (pid bid b : Nat) (dir : Direction)
    (e : Transport)
    (hT : (s.transports.map Transport.id).Nodup)
    (hfind : s.transports.find? (sameTriple pid bid dir) = some e)
    (hsame : e.user_id = b)
    (hbS : (s.users.find? fun u => u.id == b).isSome) :
    (assignTransportOne s pid b bid dir).transports = s.transports ∧
      (0 < userCount s b → userCount (assignTransportOne s pid b bid dir) b = userCount s b) ∧
      (userCount s b = 0 → userCount (assignTransportOne s pid b bid dir) b = 1) := by
  subst hsame
  have heMem : e ∈ s.transports := List.mem_of_find?_eq_some hfind
  obtain ⟨ub, hub⟩ := Option.isSome_iff_exists.mp hbS
  have hubid : ub.id = e.user_id := by simpa using List.find?_some hub
  have hstate : assignTransportOne s pid e.user_id bid dir =
      { s with
          users := adjustCount (adjustCount s.users e.user_id fun c => c - 1) e.user_id
            fun c => c + 1,
          transports := rebind s.transports e.id e.user_id } := by
    simp only [assignTransportOne, hfind]
  rw [hstate]
  have hfb : ((adjustCount (adjustCount s.users e.user_id fun c => c - 1) e.user_id
      fun c => c + 1).find? fun u => u.id == e.user_id)
      = some { ub with transport_count := ub.transport_count - 1 + 1 } := by
    rw [find?_adjustCount, find?_adjustCount, hub]
    simp [hubid]
  refine ⟨?_, ?_, ?_⟩
  · show rebind s.transports e.id e.user_id = s.transports
    apply map_eq_self_of_id
    intro t ht
    by_cases hq : t.id = e.id
    · have ht2 : t = e := List.inj_on_of_nodup_map hT ht heMem hq
      subst ht2
      simp
    · simp [hq]
  · intro hpos
    simp only [userCount, hub, Option.map_some', Option.getD_some] at hpos ⊢
    simp only [hfb, Option.map_some', Option.getD_some]
    omega
  · intro hzero
    simp only [userCount, hub, Option.map_some', Option.getD_some] at hzero ⊢
    simp only [hfb, Option.map_some', Option.getD_some]
    omega

def c10State : AppState :=
  { users := [⟨1, "member", 0⟩],
    boards := [⟨20, "Gym"⟩],
    practices := [⟨10, "Gym"⟩],
    sessions := [],
    attendances := [],
    transports := [⟨1, 10, 1, 20, Direction.toDir⟩],
    nextTransportId := 2,
    nextSessionId := 1 }

theorem assign_transport_same_carrier_witness :
    (assignTransportOne c10State 10 1 20 Direction.toDir).transports = c10State.transports ∧
      userCount (assignTransportOne c10State 10 1 20 Direction.toDir) 1 = 1 :=
  ⟨(assign_transport_same_carrier c10State 10 20 1 Direction.toDir
      ⟨1, 10, 1, 20, Direction.toDir⟩ (by decide) (by decide) (by decide) (by decide)).1,
   (assign_transport_same_carrier c10State 10 20 1 Direction.toDir
      ⟨1, 10, 1, 20, Direction.toDir⟩ (by decide) (by decide) (by decide) (by decide)).2.2
     (by decide)⟩

/-! ### Lottery lemmas -/

lemma drawWinners_subset : ∀ (d : Nat) (pool : List User) (rand : List Nat),
    ∀ w ∈ drawWinners pool d rand, w ∈ pool := by
  intro d
  induction d with
  | zero => intro pool rand w hw; simp [drawWinners] at hw
  | succ d ih =>
    intro pool rand w hw
    cases pool with
    | nil => simp [drawWinners] at hw
    | cons u ps =>
      simp only [drawWinners] at hw
      rcases List.mem_cons.mp hw with hw | hw
      · rw [hw]; exact List.get_mem _ _ _
      · exact (List.mem_filter.mp (ih _ _ w hw)).1

lemma drawWinners_ids_nodup : ∀ (d : Nat) (pool : List User) (rand : List Nat),
    ((drawWinners pool d rand).map User.id).Nodup := by
  intro d
  induction d with
  | zero => intro pool rand; simp [drawWinners]
  | succ d ih =>
    intro pool rand
    cases pool with
    | nil => simp [drawWinners]
    | cons u ps =>
      simp only [drawWinners, List.map_cons, List.nodup_cons]
      constructor
      · intro hmem
        obtain ⟨v, hv, hvid⟩ := List.mem_map.mp hmem
        have := (List.mem_filter.mp (drawWinners_subset d _ _ v hv)).2
        simp only [Bool.not_eq_true', beq_eq_false_iff_ne, ne_eq] at this
        exact this hvid
      · exact ih _ _

lemma length_filter_ne_of_mem (pool : List User) (w : User)
    (hnd : (pool.map User.id).Nodup) (hw : w ∈ pool) :
    (pool.filter fun v => !(v.id == w.id)).length + 1 = pool.length := by
  induction pool with
  | nil => cases hw
  | cons u rest ih =>
    simp only [List.map_cons, List.nodup_cons] at hnd
    obtain ⟨hh, hrest⟩ := hnd
    rcases List.mem_cons.mp hw with rfl | hw2
    · rw [List.filter_cons_of_neg (by simp)]
      have hr : rest.filter (fun v => !(v.id == w.id)) = rest := by
        apply List.filter_eq_self.mpr
        intro a ha
        have : a.id ≠ w.id := fun hc => hh (hc ▸ List.mem_map_of_mem User.id ha)
        simp [this]
      rw [hr]
      simp
    · have hne : u.id ≠ w.id := fun hc => hh (hc ▸ List.mem_map_of_mem User.id hw2)
      rw [List.filter_cons_of_pos (by simp [hne])]
      have := ih hrest hw2
      simp only [List.length_cons]
      omega

lemma drawWinners_length : ∀ (d : Nat) (pool : List User) (rand : List Nat),
    (pool.map User.id).Nodup → (drawWinners pool d rand).length = min d pool.length := by
  intro d
  induction d with
  | zero => intro pool rand _; simp [drawWinners]
  | succ d ih =>
    intro pool rand hnd
    cases pool with
    | nil => simp [drawWinners]
    | cons u ps =>
      simp only [drawWinners]
      have hwin : (u :: ps).get ⟨(rand.headD 0) % (u :: ps).length,
          Nat.mod_lt _ (Nat.succ_pos _)⟩ ∈ u :: ps := List.get_mem _ _ _
      have hfnd : (((u :: ps).filter fun v =>
          !(v.id == ((u :: ps).get ⟨(rand.headD 0) % (u :: ps).length,
            Nat.mod_lt _ (Nat.succ_pos _)⟩).id)).map User.id).Nodup :=
        hnd.sublist ((List.filter_sublist _).map User.id)
      have hlen := length_filter_ne_of_mem (u :: ps) _ hnd hwin
      have hrec := ih ((u :: ps).filter fun v =>
          !(v.id == ((u :: ps).get ⟨(rand.headD 0) % (u :: ps).length,
            Nat.mod_lt _ (Nat.succ_pos _)⟩).id)) rand.tail hfnd
      simp only [List.length_cons] at hlen hrec ⊢
      omega

lemma primary_pool_ids_nodup (s : AppState) (pid : Nat)
    (hU : (s.users.map User.id).Nodup) : ((primary_pool s pid).map User.id).Nodup :=
  hU.sublist ((List.filter_sublist _).map User.id)

lemma secondary_pool_ids_nodup (s : AppState) (pid : Nat)
    (hU : (s.users.map User.id).Nodup) : ((secondary_pool s pid).map User.id).Nodup :=
  hU.sublist ((List.filter_sublist _).map User.id)

lemma final_pool_ids_nodup (s : AppState) (pid d : Nat)
    (hU : (s.users.map User.id).Nodup) : ((final_pool s pid d).map User.id).Nodup := by
  rw [final_pool]
  by_cases hq : d ≤ (primary_pool s pid).length
  · rw [if_pos hq]; exact primary_pool_ids_nodup s pid hU
  · rw [if_neg hq, List.map_append, List.nodup_append]
    refine ⟨primary_pool_ids_nodup s pid hU, secondary_pool_ids_nodup s pid hU, ?_⟩
    intro i hiP hiS
    obtain ⟨u, hu, hui⟩ := List.mem_map.mp hiP
    obtain ⟨v, hv, hvi⟩ := List.mem_map.mp hiS
    have hu2 := (List.mem_filter.mp hu).2
    have hv2 := (List.mem_filter.mp hv).2
    simp only [Bool.and_eq_true, Bool.not_eq_true'] at hu2 hv2
    have hid : v.id = u.id := hvi.trans hui.symm
    rw [hid] at hv2
    exact absurd hv2.1 (by simp [hu2.1.2])

/-! ### C2: insufficient candidates -/

/-- C2: when the eligible pool is strictly smaller than the demand (the
number of equipment ids supplied), `run_lottery` fails with the
needed/available counts and performs no assignment: the state — in
particular every Transport row and every transport counter — is
returned unchanged. -/
theorem run_lottery_insufficient (s : AppState) (pid : Nat) (bids rand : List Nat)
    (hne : bids ≠ [])
    (hlt : (final_pool s pid bids.length).length < bids.length) :
    run_lottery s pid bids rand
        = (s, LotteryOutcome.insufficient bids.length (final_pool s pid bids.length).length) ∧
      (run_lottery s pid bids rand).1.transports = s.transports ∧
      (run_lottery s pid bids rand).1.users = s.users := by
  have h1 : run_lottery s pid bids rand
      = (s, LotteryOutcome.insufficient bids.length (final_pool s pid bids.length).length) := by
    rw [run_lottery, if_neg (by simp [hne]), if_pos hlt]
  exact ⟨h1, by rw [h1], by rw [h1]⟩

def c2State : AppState :=
  { users := [⟨1, "member", 0⟩, ⟨2, "member", 0⟩],
    boards := [⟨1, "Gym"⟩, ⟨2, "Gym"⟩, ⟨3, "Gym"⟩],
    practices := [⟨1, "Gym"⟩],
    sessions := [],
    attendances := [⟨1, 1, 1, "present", "", ""⟩, ⟨2, 1, 2, "present", "", ""⟩],
    transports := [],
    nextTransportId := 1,
    nextSessionId := 1 }

theorem run_lottery_insufficient_witness :
    run_lottery c2State 1 [1, 2, 3] [0] = (c2State, LotteryOutcome.insufficient 3 2) ∧
      (run_lottery c2State 1 [1, 2, 3] [0]).1.transports = c2State.transports ∧
      (run_lottery c2State 1 [1, 2, 3] [0]).1.users = c2State.users :=
  run_lottery_insufficient c2State 1 [1, 2, 3] [0] (by decide) (by decide)

/-! ### C3: winner-set properties under any random outcome -/

/-- C3: for every outcome of the random source (modelled by an arbitrary
index stream), every winner returned by `run_lottery` is a member of the
eligible pool, no candidate is selected twice (winner ids are distinct),
and exactly `min demand |pool|` winners are drawn — which equals the
demand whenever the insufficient-candidates check has passed, as it has
in every `ok` outcome. -/
theorem run_lottery_winner_properties (s : AppState) (pid : Nat) (bids rand : List Nat)
    (winners : List User)
    (hU : (s.users.map User.id).Nodup)
    (hok : (run_lottery s pid bids rand).2 = LotteryOutcome.ok winners) :
    (∀ w ∈ winners, w ∈ final_pool s pid bids.length) ∧
      (winners.map User.id).Nodup ∧
      winners.length = min bids.length (final_pool s pid bids.length).length ∧
      winners.length = bids.length := by
  by_cases hb : bids.isEmpty = true
  · rw [run_lottery, if_pos hb] at hok
    simp at hok
  · by_cases hlt : (final_pool s pid bids.length).length < bids.length
    · rw [run_lottery, if_neg hb, if_pos hlt] at hok
      simp at hok
    · rw [run_lottery, if_neg hb, if_neg hlt] at hok
      have hw : winners = drawWinners (final_pool s pid bids.length) bids.length rand := by
        simpa using hok.symm
      subst hw
      have hnd := final_pool_ids_nodup s pid bids.length hU
      refine ⟨fun w hw2 => drawWinners_subset _ _ _ w hw2,
        drawWinners_ids_nodup _ _ _, drawWinners_length _ _ _ hnd, ?_⟩
      rw [drawWinners_length _ _ _ hnd]
      omega

theorem run_lottery_winner_properties_witness :
    (∀ w ∈ [(⟨1, "member", 0⟩ : User)], w ∈ final_pool c2State 1 [5].length) ∧
      (([(⟨1, "member", 0⟩ : User)]).map User.id).Nodup ∧
      ([(⟨1, "member", 0⟩ : User)]).length = min [5].length (final_pool c2State 1 [5].length).length ∧
      ([(⟨1, "member", 0⟩ : User)]).length = [5].length :=
  run_lottery_winner_properties c2State 1 [5] [0] [⟨1, "member", 0⟩] (by decide) (by decide)

/-! ### C4: eligible-pool composition -/

lemma isPresent_iff (s : AppState) (pid uid : Nat) :
    isPresent s pid uid = true ↔ IsAttendee s pid uid := by
  simp only [isPresent, IsAttendee, List.any_eq_true, Bool.and_eq_true, beq_iff_eq]
  tauto

lemma carries_iff (s : AppState) (pid uid : Nat) (dir : Direction) :
    carries s pid uid dir = true ↔ IsCarrier s pid uid dir := by
  simp only [carries, IsCarrier, List.any_eq_true, Bool.and_eq_true, beq_iff_eq,
    decide_eq_true_eq]
  tauto

lemma not_carries_iff (s : AppState) (pid uid : Nat) (dir : Direction) :
    (!carries s pid uid dir) = true ↔ ¬ IsCarrier s pid uid dir := by
  rw [Bool.not_eq_true', ← carries_iff]
  cases carries s pid uid dir <;> simp

/-- C4: the pools of `run_lottery` are exactly the spec's set
expressions — `primary_pool` is the `present` attendees with no
transport duty, `secondary_pool` the outbound carriers with no
confirmed return duty, and `final_pool` is `primary_pool` alone when it
covers the demand and the union `primary_pool ∪ secondary_pool`
otherwise. -/
theorem lottery_pool_composition (s : AppState) (pid demand : Nat) (u : User) :
    (u ∈ primary_pool s pid ↔ u ∈ s.users ∧ IsAttendee s pid u.id ∧
        ¬IsCarrier s pid u.id Direction.toDir ∧ ¬IsCarrier s pid u.id Direction.fromDir) ∧
      (u ∈ secondary_pool s pid ↔ u ∈ s.users ∧ IsCarrier s pid u.id Direction.toDir ∧
        ¬IsCarrier s pid u.id Direction.fromDir) ∧
      (demand ≤ (primary_pool s pid).length → final_pool s pid demand = primary_pool s pid) ∧
      ((primary_pool s pid).length < demand →
        (u ∈ final_pool s pid demand ↔
          u ∈ primary_pool s pid ∨ u ∈ secondary_pool s pid)) := by
  refine ⟨?_, ?_, ?_, ?_⟩
  · rw [primary_pool, List.mem_filter, Bool.and_eq_true, Bool.and_eq_true,
      isPresent_iff, not_carries_iff, not_carries_iff]
    tauto
  · rw [secondary_pool, List.mem_filter, Bool.and_eq_true, carries_iff, not_carries_iff]
  · intro h
    rw [final_pool, if_pos h]
  · intro h
    rw [final_pool, if_neg (by omega), List.mem_append]

theorem lottery_pool_composition_witness :
    final_pool c2State 1 0 = primary_pool c2State 1 ∧
      ((⟨1, "member", 0⟩ : User) ∈ final_pool c2State 1 9 ↔
        (⟨1, "member", 0⟩ : User) ∈ primary_pool c2State 1 ∨
          (⟨1, "member", 0⟩ : User) ∈ secondary_pool c2State 1) :=
  ⟨(lottery_pool_composition c2State 1 0 ⟨1, "member", 0⟩).2.2.1 (Nat.zero_le _),
   (lottery_pool_composition c2State 1 9 ⟨1, "member", 0⟩).2.2.2 (by decide)⟩

/-! ### C5: selection weights -/

/-- C5: the lottery weight `1 / (transport_count + 1)^2` is strictly
positive and strictly decreasing in the transport count, and in a
single weighted draw over a fixed pool (probability proportional to
weight) a candidate with strictly lower transport count is selected
with strictly higher probability. -/
theorem lottery_weight_properties :
    (∀ tc : Nat, 0 < lotteryWeight tc) ∧
      (∀ a b : Nat, a < b → lotteryWeight b < lotteryWeight a) ∧
      (∀ (pool : List User) (u v : User), u ∈ pool → v ∈ pool →
        u.transport_count < v.transport_count →
        selectionProb pool v < selectionProb pool u) := by
  have hpos : ∀ tc : Nat, 0 < lotteryWeight tc := by
    intro tc
    rw [lotteryWeight]
    positivity
  have hmono : ∀ a b : Nat, a < b → lotteryWeight b < lotteryWeight a := by
    intro a b hab
    rw [lotteryWeight, lotteryWeight]
    have hlt : ((a : ℚ) + 1) ^ 2 < ((b : ℚ) + 1) ^ 2 := by
      have h1 : (a : ℚ) + 1 < (b : ℚ) + 1 := by exact_mod_cast Nat.add_lt_add_right hab 1
      gcongr
    exact one_div_lt_one_div_of_lt (by positivity) hlt
  refine ⟨hpos, hmono, ?_⟩
  intro pool u v hu hv hlt
  rw [selectionProb, selectionProb]
  have hne : pool ≠ [] := List.ne_nil_of_mem hu
  have hsum : 0 < (pool.map fun w => lotteryWeight w.transport_count).sum := by
    apply List.sum_pos
    · intro x hx
      obtain ⟨w, _, rfl⟩ := List.mem_map.mp hx
      exact hpos _
    · simp [hne]
  have hw := hmono _ _ hlt
  gcongr

theorem lottery_weight_properties_witness :
    0 < lotteryWeight 0 ∧ lotteryWeight 3 < lotteryWeight 0 ∧
      selectionProb [⟨1, "member", 0⟩, ⟨2, "member", 3⟩] ⟨2, "member", 3⟩ <
        selectionProb [⟨1, "member", 0⟩, ⟨2, "member", 3⟩] ⟨1, "member", 0⟩ :=
  ⟨lottery_weight_properties.1 0,
   lottery_weight_properties.2.1 0 3 (by decide),
   lottery_weight_properties.2.2 [⟨1, "member", 0⟩, ⟨2, "member", 3⟩] ⟨1, "member", 0⟩
     ⟨2, "member", 3⟩ (by decide) (by decide) (by decide)⟩

/-! ### C1: required_transport_boards -/

def c1CtrState : AppState :=
  { users := [],
    boards := [⟨1, "Depot"⟩],
    practices := [⟨1, "Gym"⟩],
    sessions := [⟨1, 1, 1, [7]⟩],
    attendances := [],
    transports := [⟨1, 1, 7, 1, Direction.toDir⟩],
    nextTransportId := 2,
    nextSessionId := 2 }

def c1CtrPractice : Practice := ⟨1, "Gym"⟩

/-- C1 counterexample: the code bases `required_transport_boards` on the
count of boards physically at the location only; with one board located
elsewhere but already scheduled to arrive by a `to`-direction Transport,
and one session of one member, the code yields 1 while the claim's
formula (counting scheduled arrivals into `boards_at_location`) yields
`max(0, 1 - 1) = 0`. -/
theorem required_transport_boards_counterexample :
    required_transport_boards c1CtrState c1CtrPractice = 1 ∧
      boardsAtPracticeSpec c1CtrState c1CtrPractice = 1 ∧
      max_session_members c1CtrState c1CtrPractice.id = 1 ∧
      required_transport_boards c1CtrState c1CtrPractice
        ≠ max_session_members c1CtrState c1CtrPractice.id
            - boardsAtPracticeSpec c1CtrState c1CtrPractice := by
  decide

def c1ScenState : AppState :=
  { users := [],
    boards := [⟨1, "Gym"⟩, ⟨2, "Gym"⟩],
    practices := [⟨1, "Gym"⟩],
    sessions := [⟨1, 1, 1, [1, 2, 3, 4, 5]⟩],
    attendances := [],
    transports := [],
    nextTransportId := 1,
    nextSessionId := 2 }

/-- C1 amended: `required_transport_boards = max(0, max_session_size -
boards_at_location)` where `boards_at_location` counts only the boards
whose current location equals the practice location (scheduled arrivals
are NOT included); the result is 0 when there are no sessions; and the
scenario with one 5-member session and 2 boards present yields 3. -/
theorem required_transport_boards_formula (s : AppState) (p : Practice) :
    ((required_transport_boards s p : Int)
        = max 0 ((max_session_members s p.id : Int) - (boards_at_location s p.location : Int))) ∧
      (practiceSessions s p.id = [] → required_transport_boards s p = 0) ∧
      required_transport_boards c1ScenState ⟨1, "Gym"⟩ = 3 := by
  refine ⟨?_, ?_, by decide⟩
  · rw [required_transport_boards]
    omega
  · intro h
    rw [required_transport_boards, max_session_members, h]
    simp

def c1EmptyState : AppState :=
  { users := [],
    boards := [⟨1, "Gym"⟩],
    practices := [⟨1, "Gym"⟩],
    sessions := [],
    attendances := [],
    transports := [],
    nextTransportId := 1,
    nextSessionId := 1 }

theorem required_transport_boards_formula_witness :
    required_transport_boards c1EmptyState ⟨1, "Gym"⟩ = 0 ∧
      required_transport_boards c1ScenState ⟨1, "Gym"⟩ = 3 :=
  ⟨(required_transport_boards_formula c1EmptyState ⟨1, "Gym"⟩).2.1 (by decide),
   (required_transport_boards_formula c1ScenState ⟨1, "Gym"⟩).2.2⟩

/-! ### C8: attendance answers -/

lemma find?_update_attendance (l : List Attendance) (aid : Nat) (status notes reason : String) :
    ((l.map fun a =>
        if a.id == aid then { a with status := status, notes := notes, reason := reason }
        else a).find? fun a => a.id == aid)
      = (l.find? fun a => a.id == aid).map
          fun a => { a with status := status, notes := notes, reason := reason } := by
  induction l with
  | nil => rfl
  | cons a rest ih =>
    have hid : (if (a.id == aid) = true
        then { a with status := status, notes := notes, reason := reason } else a).id = a.id := by
      by_cases h : a.id = aid <;> simp [h]
    by_cases h : a.id = aid
    · simp only [List.map_cons]
      rw [List.find?_cons_of_pos _ (by rw [hid]; simp [h]),
        List.find?_cons_of_pos _ (by simp [h])]
      simp [h]
    · simp only [List.map_cons]
      rw [List.find?_cons_of_neg _ (by rw [hid]; simp [h]),
        List.find?_cons_of_neg _ (by simp [h])]
      exact ih

def c8State : AppState :=
  { users := [⟨1, "member", 0⟩, ⟨2, "admin", 0⟩],
    boards := [],
    practices := [⟨1, "Gym"⟩],
    sessions := [],
    attendances := [⟨1, 1, 1, "unanswered", "", ""⟩],
    transports := [],
    nextTransportId := 1,
    nextSessionId := 1 }

/-- C8 counterexample: an administrator who does not own the Attendance
row is refused — the code's only permission check is
`attendance.user_id != current_user.id`, with no administrator
exemption — so the claimed iff (fails exactly when the caller is
neither owner nor admin) is false at this input. -/
theorem answer_attendance_admin_denied :
    (⟨2, "admin", 0⟩ : User).role = "admin" ∧
      answer_attendance c8State ⟨2, "admin", 0⟩ 1 "present" "" ""
        = (c8State, some AnswerError.permissionDenied) ∧
      ¬ (((answer_attendance c8State ⟨2, "admin", 0⟩ 1 "present" "" "").2
            = some AnswerError.permissionDenied)
          ↔ ¬ ((⟨2, "admin", 0⟩ : User).id = 1 ∨ (⟨2, "admin", 0⟩ : User).role = "admin")) := by
  decide

/-- C8 amended: for a non-guest caller on an existing Attendance row,
the operation fails with `PermissionDenied` iff the caller is not the
owning participant — administrators are NOT exempt — and every denial
returns the entire state (in particular the Attendance row) unchanged;
on success it updates exactly that row with the supplied status, notes
and reason (no validation of the status value) and changes nothing
else. -/
theorem answer_attendance_owner_only (s : AppState) (caller : User) (aid : Nat)
    (status notes reason : String) (att : Attendance)
    (hrole : caller.role ≠ "guest")
    (hfind : s.attendances.find? (fun a => a.id == aid) = some att) :
    ((answer_attendance s caller aid status notes reason).2 = some AnswerError.permissionDenied
        ↔ caller.id ≠ att.user_id) ∧
      (caller.id ≠ att.user_id →
        answer_attendance s caller aid status notes reason
          = (s, some AnswerError.permissionDenied)) ∧
      (caller.id = att.user_id →
        (answer_attendance s caller aid status notes reason).2 = none ∧
          ((answer_attendance s caller aid status notes reason).1.attendances.find?
              fun a => a.id == aid)
            = some { att with status := status, notes := notes, reason := reason } ∧
          (∀ a ∈ s.attendances, a.id ≠ aid →
            a ∈ (answer_attendance s caller aid status notes reason).1.attendances) ∧
          (answer_attendance s caller aid status notes reason).1.users = s.users ∧
          (answer_attendance s caller aid status notes reason).1.transports = s.transports) := by
  have hguest : ¬((caller.role == "guest") = true) := by simp [hrole]
  by_cases hc : caller.id = att.user_id
  · have hres : answer_attendance s caller aid status notes reason
        = ({ s with attendances := s.attendances.map fun a =>
              if a.id == aid
              then { a with status := status, notes := notes, reason := reason }
              else a }, none) := by
      simp only [answer_attendance, hfind]
      rw [if_neg hguest, if_neg (by simp [hc.symm])]
    refine ⟨?_, fun h => absurd hc h, fun _ => ⟨?_, ?_, ?_, ?_, ?_⟩⟩
    · rw [hres]
      simp [hc]
    · rw [hres]
    · rw [hres]
      show ((s.attendances.map fun a =>
          if a.id == aid
          then { a with status := status, notes := notes, reason := reason }
          else a).find? fun a => a.id == aid)
        = some { att with status := status, notes := notes, reason := reason }
      rw [find?_update_attendance, hfind]
      rfl
    · intro a ha hne
      rw [hres]
      show a ∈ s.attendances.map fun a =>
        if a.id == aid then { a with status := status, notes := notes, reason := reason } else a
      have hfa : (fun a2 : Attendance =>
          if a2.id == aid then { a2 with status := status, notes := notes, reason := reason }
          else a2) a = a := by simp [hne]
      exact hfa ▸ List.mem_map_of_mem _ ha
    · rw [hres]
    · rw [hres]
  · have hres2 : answer_attendance s caller aid status notes reason
        = (s, some AnswerError.permissionDenied) := by
      simp only [answer_attendance, hfind]
      rw [if_neg hguest, if_pos (by simp [bne_iff_ne]; exact fun hh => hc hh.symm)]
    refine ⟨?_, fun _ => hres2, fun h => absurd h hc⟩
    rw [hres2]
    simp [hc]

theorem answer_attendance_owner_only_witness :
    (answer_attendance c8State ⟨1, "member", 0⟩ 1 "present" "n" "r").2 = none ∧
      ((answer_attendance c8State ⟨1, "member", 0⟩ 1 "present" "n" "r").1.attendances.find?
          fun a => a.id == 1)
        = some ⟨1, 1, 1, "present", "r", "n"⟩ ∧
      answer_attendance c8State ⟨3, "member", 0⟩ 1 "present" "n" "r"
        = (c8State, some AnswerError.permissionDenied) :=
  ⟨((answer_attendance_owner_only c8State ⟨1, "member", 0⟩ 1 "present" "n" "r"
      ⟨1, 1, 1, "unanswered", "", ""⟩ (by decide) (by decide)).2.2 rfl).1,
   ((answer_attendance_owner_only c8State ⟨1, "member", 0⟩ 1 "present" "n" "r"
      ⟨1, 1, 1, "unanswered", "", ""⟩ (by decide) (by decide)).2.2 rfl).2.1,
   (answer_attendance_owner_only c8State ⟨3, "member", 0⟩ 1 "present" "n" "r"
      ⟨1, 1, 1, "unanswered", "", ""⟩ (by decide) (by decide)).2.1 (by decide)⟩

/-! ### C9: session numbering -/

def c9State : AppState :=
  { users := [],
    boards := [],
    practices := [⟨1, "Gym"⟩],
    sessions := [],
    attendances := [],
    transports := [],
    nextTransportId := 1,
    nextSessionId := 1 }

/-- C9 counterexample: add two sessions (numbers 1, 2), delete the one
numbered 1, then add again — the new session gets number
`current count + 1 = 2`, duplicating the surviving number 2, so session
numbers are neither unique nor never-reused across add/delete
sequences. -/
theorem session_numbers_duplicate_counterexample :
    sessionNumbers (add_session (delete_session (add_session (add_session c9State 1) 1) 1) 1) 1
        = [2, 2] ∧
      ¬ (sessionNumbers
          (add_session (delete_session (add_session (add_session c9State 1) 1) 1) 1) 1).Nodup := by
  decide

/-- C9 amended: `add_session` always appends a session numbered
`current count + 1`; in add-only histories the numbers of a practice
are exactly `1..n` — in particular pairwise distinct — but a deletion
followed by an `add_session` can duplicate a surviving number (see the
counterexample). -/
theorem add_session_numbering (s : AppState) (pid : Nat) (n : Nat) :
    (sessionNumbers (add_session s pid) pid
        = sessionNumbers s pid ++ [(practiceSessions s pid).length + 1]) ∧
      (sessionNumbers s pid = List.range' 1 n →
        sessionNumbers (add_session s pid) pid = List.range' 1 (n + 1) ∧
          (sessionNumbers (add_session s pid) pid).Nodup) := by
  have hA : sessionNumbers (add_session s pid) pid
      = sessionNumbers s pid ++ [(practiceSessions s pid).length + 1] := by
    simp [sessionNumbers, practiceSessions, add_session, List.filter_append]
  refine ⟨hA, fun hr => ?_⟩
  have hlen : (practiceSessions s pid).length = n := by
    have h2 : (sessionNumbers s pid).length = n := by
      rw [hr]
      simp
    simpa [sessionNumbers] using h2
  have h3 : sessionNumbers (add_session s pid) pid = List.range' 1 (n + 1) := by
    rw [hA, hr, hlen,
      show List.range' 1 (n + 1) = List.range' 1 n ++ [1 + n] by
        simpa using @List.range'_concat 1 1 n]
    simp [Nat.add_comm]
  exact ⟨h3, h3 ▸ @List.nodup_range' 1 (n + 1) 1 Nat.one_pos⟩

def c9WState : AppState :=
  { users := [],
    boards := [],
    practices := [⟨1, "Gym"⟩],
    sessions := [⟨1, 1, 1, []⟩],
    attendances := [],
    transports := [],
    nextTransportId := 1,
    nextSessionId := 2 }

theorem add_session_numbering_witness :
    sessionNumbers (add_session c9WState 1) 1 = List.range' 1 2 ∧
      (sessionNumbers (add_session c9WState 1) 1).Nodup :=
  (add_session_numbering c9WState 1 1).2 (by decide)
